import Mathlib

/-!
Shallow embedding of `src/main.rs` (a guitar fretboard diagram generator):
a 12-tone pitch-class model (`Note`) with modular offset arithmetic, tuning
derivation (`Guitar.from_tuning`), scale derivation (`Scale.notes_list`,
`Scale.notes`), and the per-cell rendering decision of `main`'s print loop.
Rust iterators (`cycle`, `skip_while`, `step_by`, `skip`, `take`) are
embedded as index arithmetic on total functions `Nat → Note`; `usize`
subtraction (which panics on underflow in debug builds) is embedded with
`Option`; the `HashSet` of scale notes is embedded as a `Finset`.
-/

/-- The 12 pitch classes, in the declaration order of the Rust `enum Note`
(`C, Cs, D, Ds, E, F, Fs, G, Gs, A, As, B`), which is also the order
produced by its derived `EnumIter` instance. -/
inductive Note
  | C
  | Cs
  | D
  | Ds
  | E
  | F
  | Fs
  | G
  | Gs
  | A
  | As
  | B
deriving DecidableEq, Repr, Fintype

namespace Note

/-- Ordinal of a pitch class in the canonical declaration order
(the discriminant the derived `EnumIter`/`Ord` instances use). -/
def ordinal : Note → Nat
  | C => 0
  | Cs => 1
  | D => 2
  | Ds => 3
  | E => 4
  | F => 5
  | Fs => 6
  | G => 7
  | Gs => 8
  | A => 9
  | As => 10
  | B => 11

/-- Pitch class at a given ordinal < 12 (the `_` case is never reached by
callers, which always pass a value reduced mod 12). -/
def ofOrdinalAux : Nat → Note
  | 0 => C
  | 1 => Cs
  | 2 => D
  | 3 => Ds
  | 4 => E
  | 5 => F
  | 6 => Fs
  | 7 => G
  | 8 => Gs
  | 9 => A
  | 10 => As
  | _ => B

/-- Pitch class at a given ordinal, reduced cyclically. -/
def ofOrdinal (n : Nat) : Note := ofOrdinalAux (n % 12)

/-- Embedding of Rust `Note::cycle()` (`Self::iter().cycle()`): the element
the infinite cyclic iterator yields at index `i` is the pitch class of
ordinal `i mod 12`. -/
def cycle (i : Nat) : Note := ofOrdinal i

/-- Embedding of Rust `Note::cycle_from(self)`
(`Self::cycle().skip_while(|i| i != &self)`): the first occurrence of
`self` in the cycle is at index `ordinal self`, so `skip_while` drops
exactly `ordinal self` elements and the iterator yields, at index `i`,
the element of the cycle at index `ordinal self + i`. -/
def cycle_from (p : Note) (i : Nat) : Note := cycle (p.ordinal + i)

/-- Embedding of Rust `Note::offset_by(self, offset: i32)`:
`offset.wrapping_rem_euclid(Self::COUNT as i32)` followed by
`self.cycle_from().skip(offset).next()`. For the fixed divisor 12,
`wrapping_rem_euclid` on `i32` agrees with the mathematical Euclidean
remainder (`Int` `%`, which is `Int.emod`) at every representable
argument (the wrapping case only exists for divisor `-1`), and the
remainder lies in `[0, 12)`, so the `skip`/`next` picks index
`(offset % 12).toNat` of `cycle_from`. -/
def offset_by (p : Note) (offset : Int) : Note :=
  p.cycle_from ((offset % 12).toNat)

end Note

theorem ordinal_lt (p : Note) : p.ordinal < 12 := by cases p <;> decide

theorem ofOrdinal_ordinal (p : Note) : Note.ofOrdinal p.ordinal = p := by
  cases p <;> rfl

theorem ordinal_ofOrdinalAux (r : Nat) (h : r < 12) :
    (Note.ofOrdinalAux r).ordinal = r := by
  interval_cases r <;> rfl

theorem ordinal_ofOrdinal (n : Nat) : (Note.ofOrdinal n).ordinal = n % 12 :=
  ordinal_ofOrdinalAux (n % 12) (Nat.mod_lt _ (by decide))

theorem ofOrdinal_congr {m k : Nat} (h : m % 12 = k % 12) :
    Note.ofOrdinal m = Note.ofOrdinal k := by
  unfold Note.ofOrdinal
  rw [h]

/-- Embedding of Rust `struct GuitarString { start: Note }`. -/
structure GuitarString where
  start : Note
deriving DecidableEq, Repr

/-- Embedding of Rust `struct Guitar { strings, notes_per_string }`. -/
structure Guitar where
  strings : List GuitarString
  notes_per_string : Nat
deriving DecidableEq, Repr

/-- Embedding of Rust `enum Tuning`. -/
inductive Tuning
  | Fourths
  | ScaleCentered
deriving DecidableEq, Repr, Fintype

/-- Embedding of `l.iter().cycle().take(n)` for a nonempty list `l`:
element `i` of the result is the element of `l` at index `i mod len l`. -/
def cycleTake (l : List Nat) (n : Nat) : List Nat :=
  (List.range n).map fun i => l.getD (i % l.length) 0

/-- Embedding of Rust `Guitar::from_tuning`.
`Fourths`: `start.cycle_from().step_by(5).take(string_count)` — element `i`
of a `step_by(5)` iterator is element `5*i` of the underlying iterator.
`ScaleCentered`: seed `output = vec![start]`, then for each of the first
`string_count` elements of `[4,4,4,4].iter().cycle()`, push
`output.last().offset_by(interval)` (the `expect` on `last()` never fires:
the vector is never empty, which the `getD start` default mirrors). -/
def Guitar.from_tuning (string_count : Nat) (start : Note)
    (notes_per_string : Nat) (tuning : Tuning) : Guitar :=
  let strings : List GuitarString :=
    match tuning with
    | Tuning.Fourths =>
        (List.range string_count).map fun i =>
          GuitarString.mk (start.cycle_from (5 * i))
    | Tuning.ScaleCentered =>
        let intervals := cycleTake [4, 4, 4, 4] string_count
        let output := intervals.foldl
          (fun out interval =>
            out ++ [((out.getLast?).getD start).offset_by (interval : Int)])
          [start]
        output.map GuitarString.mk
  { strings := strings, notes_per_string := notes_per_string }

/-- The ordered open-string pitch classes of a derived tuning instance. -/
def Guitar.open_notes (g : Guitar) : List Note :=
  g.strings.map GuitarString.start

/-- Embedding of Rust `enum ScaleMode`. -/
inductive ScaleMode
  | Major
deriving DecidableEq, Repr, Fintype

/-- Embedding of Rust `ScaleMode::intervals_raw`. -/
def ScaleMode.intervals_raw : ScaleMode → List Nat
  | ScaleMode.Major => [2, 2, 1, 2, 2, 2, 1]

/-- Embedding of Rust `struct Scale { start_note, mode }`. -/
structure Scale where
  start_note : Note
  mode : ScaleMode
deriving DecidableEq, Repr, Fintype

/-- Embedding of Rust `Scale::notes_list`: start from `vec![start_note]`
and, for each interval of the pattern in order, push the last element
offset by that interval (`unwrap_or(start_note)` never fires on the
nonempty vector; `getD start_note` mirrors it). -/
def Scale.notes_list (s : Scale) : List Note :=
  s.mode.intervals_raw.foldl
    (fun notes interval =>
      notes ++ [((notes.getLast?).getD s.start_note).offset_by (interval : Int)])
    [s.start_note]

/-- Embedding of Rust `Scale::notes`: the `HashSet` of the elements of
`notes_list`, embedded as a `Finset`. -/
def Scale.notes (s : Scale) : Finset Note :=
  s.notes_list.toFinset

/-- What `main`'s inner loop prints for one fret cell (each variant stands
for one `print!` arm; `emphasized` is the name wrapped in the highlight
escape codes, `plain` the bare name, `marker` is `"|"`, `inScaleMarker`
is `"O"`). -/
inductive Cell
  | marker
  | emphasized (n : Note)
  | plain (n : Note)
  | inScaleMarker
deriving DecidableEq, Repr

/-- Embedding of the cell decision of `main`'s inner loop: first
`notes.contains(&note)`; if contained, match on `all_note_names`, where
the `true` arm and the root-equality `true` arm both call `print_note`,
which itself prints emphasized exactly when the note equals
`scale.start_note`; otherwise print `"O"`; if not contained, print
`"|"`. -/
def renderCell (scale : Scale) (all_note_names : Bool) (note : Note) : Cell :=
  let print_note : Cell :=
    if note = scale.start_note then Cell.emphasized note else Cell.plain note
  if note ∈ scale.notes then
    match all_note_names with
    | true => print_note
    | false =>
        if note = scale.start_note then print_note else Cell.inScaleMarker
  else Cell.marker

/-- Embedding of one string's row of cells in `main`:
`string.start.cycle_from().skip(frets_start).take(notes_per_string - frets_start)`.
The take count `notes_per_string - frets_start` is a `usize` subtraction,
which underflows when `frets_start > notes_per_string`: a panic in debug
builds (and a wrap to a near-`2^64` count in release builds), embedded as
`none`. Otherwise cell `k` is the cell for
`cycle_from open_note (frets_start + k)`. -/
def stringCells (scale : Scale) (all_note_names : Bool) (open_note : Note)
    (frets_start notes_per_string : Nat) : Option (List Cell) :=
  if frets_start ≤ notes_per_string then
    some ((List.range (notes_per_string - frets_start)).map fun k =>
      renderCell scale all_note_names (open_note.cycle_from (frets_start + k)))
  else none

/-- Embedding of the parsed CLI parameters of Rust `struct Cli`. -/
structure Cli where
  start_note : Note
  mode : ScaleMode
  string_count : Nat
  all_note_names : Bool
  frets_start : Nat
  frets_end : Nat
  tuning : Tuning
deriving DecidableEq, Repr

/-- Embedding of `main`'s tuning derivation:
`Guitar::from_tuning(string_count, Note::E, frets_end, tuning)` — the
reference pitch is the hard-coded `Note::E`, not `cli.start_note`. -/
def mainTuning (cli : Cli) : Guitar :=
  Guitar.from_tuning cli.string_count Note.E cli.frets_end cli.tuning

/-- Embedding of the per-row leading labels `main` prints: strings are
enumerated from 1 (`i + 1`) and printed in reverse order
(`.enumerate().map(|(i, val)| (i + 1, val)).rev()`), each row starting
with `"{num}({string.start})"`. -/
def mainRowLabels (cli : Cli) : List (Nat × Note) :=
  (((mainTuning cli).strings.enum.map fun p => (p.1 + 1, p.2.start)).reverse)

/-- Modelled from the spec's description of `offsetBy`, for refinement
comparison with the source's `Note.offset_by`: the canonical pitch class
at the ordinal obtained from `ord(p) + n` by the Euclidean,
always-non-negative remainder modulo 12. -/
def specOffsetBy (p : Note) (n : Int) : Note :=
  Note.ofOrdinal ((((p.ordinal : Int) + n) % 12).toNat)

/-- Modelled from the claimed rendering precedence, for refinement
comparison with the source's `renderCell`: not in the scale's note set
gives the marker; else the root gives its emphasized name; else
`all_note_names` gives the plain name; else the in-scale marker. -/
def specRenderCell (scale : Scale) (all_note_names : Bool) (note : Note) :
    Cell :=
  if note ∉ scale.notes then Cell.marker
  else if note = scale.start_note then Cell.emphasized note
  else if all_note_names then Cell.plain note
  else Cell.inScaleMarker

/-- C1 (counterexample): Fourths tuning with 6 strings referenced at E does
not produce standard tuning `[E, A, D, G, B, E]`. -/
theorem C1_claim_counterexample :
    (Guitar.from_tuning 6 Note.E 24 Tuning.Fourths).open_notes ≠
      [Note.E, Note.A, Note.D, Note.G, Note.B, Note.E] := by decide

/-- C1 (amended): Fourths tuning with 6 strings referenced at E steps 5
semitones per string and produces the all-fourths tuning
`[E, A, D, G, C, F]`; standard tuning, with its major third between G and
B, is not all fourths. -/
theorem C1_fourths_tuning_amended :
    (Guitar.from_tuning 6 Note.E 24 Tuning.Fourths).open_notes =
      [Note.E, Note.A, Note.D, Note.G, Note.C, Note.F] := by decide

/-- C2 (code evaluated at the failing input): ScaleCentered with
`string_count = 4`, reference C yields 5 open strings
`[C, E, G#, C, E]`, not the 4 the claim (and the spec's length
invariant) require; with `string_count = 0` it yields `[C]`, not the
empty sequence. -/
theorem C2_scale_centered_code_result :
    (Guitar.from_tuning 4 Note.C 24 Tuning.ScaleCentered).open_notes =
      [Note.C, Note.E, Note.Gs, Note.C, Note.E] ∧
    (Guitar.from_tuning 4 Note.C 24 Tuning.ScaleCentered).open_notes.length
      = 5 ∧
    (Guitar.from_tuning 0 Note.C 24 Tuning.ScaleCentered).open_notes =
      [Note.C] := by decide

/-- C3 (counterexample): with `frets_start = 1 > frets_end = 0` the
per-string cell computation underflows the `usize` take count (embedded
as `none`) instead of printing zero cells (`some []`). -/
theorem C3_claim_counterexample :
    stringCells (Scale.mk Note.C ScaleMode.Major) false Note.E 1 0 = none ∧
    stringCells (Scale.mk Note.C ScaleMode.Major) false Note.E 1 0 ≠
      some [] := by decide

/-- C3 (amended): when `frets_start ≤ frets_end` each string prints
exactly `frets_end - frets_start` cells; when `frets_start > frets_end`
the take-count subtraction `frets_end - frets_start` underflows (panic in
debug builds, a near-`2^64` wrapped count in release builds), so the
range is not treated as empty. -/
theorem C3_fret_window_amended (s : Scale) (a : Bool) (o : Note)
    (fs fe : Nat) :
    (fs ≤ fe →
      ∃ l, stringCells s a o fs fe = some l ∧ l.length = fe - fs) ∧
    (fe < fs → stringCells s a o fs fe = none) := by
  constructor
  · intro h
    unfold stringCells
    rw [if_pos h]
    exact ⟨_, rfl, by simp⟩
  · intro h
    unfold stringCells
    rw [if_neg (by omega)]

/-- C3 (witness): both branches of the amended statement at concrete fret
windows. -/
theorem C3_fret_window_amended_witness :
    (∃ l, stringCells (Scale.mk Note.C ScaleMode.Major) false Note.E 2 5 =
      some l ∧ l.length = 3) ∧
    stringCells (Scale.mk Note.C ScaleMode.Major) false Note.E 5 2 =
      none :=
  ⟨(C3_fret_window_amended (Scale.mk Note.C ScaleMode.Major) false Note.E
      2 5).1 (by decide),
   (C3_fret_window_amended (Scale.mk Note.C ScaleMode.Major) false Note.E
      5 2).2 (by decide)⟩

/-- C4 (counterexample): in C Major with `all_note_names = false`, the
open E string's first three cells are not `O`, `|`, `|`: fret 1 sounds F,
which is in the C-major note set, so its cell is `O`, not `|`. -/
theorem C4_claim_counterexample :
    stringCells (Scale.mk Note.C ScaleMode.Major) false Note.E 0 3 ≠
      some [Cell.inScaleMarker, Cell.marker, Cell.marker] := by decide

/-- C4 (amended): the cell decision follows the claimed precedence (not in
set gives the marker, else root gives the emphasized name, else
`all_note_names` gives the plain name, else the in-scale marker), and in
the concrete scenario the open E string's first three cells (E, F, F#)
are `O`, `O`, `|`. -/
theorem C4_cell_precedence_amended :
    (∀ (s : Scale) (a : Bool) (n : Note),
      renderCell s a n = specRenderCell s a n) ∧
    stringCells (Scale.mk Note.C ScaleMode.Major) false Note.E 0 3 =
      some [Cell.inScaleMarker, Cell.inScaleMarker, Cell.marker] := by
  constructor
  · intro s a n
    unfold renderCell specRenderCell
    by_cases h1 : n ∈ s.notes
    · by_cases h2 : n = s.start_note <;> cases a <;> simp [h1, h2]
    · simp [h1]
  · decide

/-- C5: `offset_by` is total over the integers and agrees with the spec's
formula (the canonical pitch class at ordinal `ord(p) + n` reduced by the
Euclidean remainder modulo 12); `offsetBy(-1)` from C yields B, and
offsetting by 12 or by 0 is the identity on every pitch class. -/
theorem C5_offset_by_spec :
    (∀ (p : Note) (n : Int), p.offset_by n = specOffsetBy p n) ∧
    Note.C.offset_by (-1) = Note.B ∧
    (∀ p : Note, p.offset_by 12 = p ∧ p.offset_by 0 = p) := by
  refine ⟨?_, by decide, by decide⟩
  intro p n
  unfold Note.offset_by Note.cycle_from Note.cycle specOffsetBy
  apply ofOrdinal_congr
  omega

/-- C6: offsetting by `n` and then by `-n` returns every pitch class to
itself, for every integer `n`. -/
theorem C6_offset_by_invertible :
    ∀ (p : Note) (n : Int), (p.offset_by n).offset_by (-n) = p := by
  intro p n
  have h := ordinal_lt p
  unfold Note.offset_by Note.cycle_from Note.cycle
  rw [ordinal_ofOrdinal]
  conv_rhs => rw [← ofOrdinal_ordinal p]
  apply ofOrdinal_congr
  omega

set_option linter.unusedVariables false

/-- C7: `cycle_from p` yields `p` at index 0, its first 12 elements contain
each of the 12 canonical pitch classes exactly once, and it is periodic
with period 12 (the total function on `Nat` embeds an iterator that never
terminates on its own). -/
theorem C7_cycle_from_spec :
    ∀ p : Note,
      p.cycle_from 0 = p ∧
      (∀ q : Note, ((List.range 12).map p.cycle_from).count q = 1) ∧
      (∀ i : Nat, p.cycle_from (i + 12) = p.cycle_from i) := by
  intro p
  refine ⟨?_, ?_, ?_⟩
  · cases p <;> rfl
  · cases p <;> decide
  · intro i
    apply ofOrdinal_congr
    omega

/-- C8: for every root, the Major `notes_list` has length 8, starts with
the root and ends with the root; for root C it is
`[C, D, E, F, G, A, B, C]`. -/
theorem C8_notes_list_major :
    (∀ r : Note,
      (Scale.mk r ScaleMode.Major).notes_list.length = 8 ∧
      (Scale.mk r ScaleMode.Major).notes_list.head? = some r ∧
      (Scale.mk r ScaleMode.Major).notes_list.getLast? = some r) ∧
    (Scale.mk Note.C ScaleMode.Major).notes_list =
      [Note.C, Note.D, Note.E, Note.F, Note.G, Note.A, Note.B,
       Note.C] := by decide

/-- C9: for every root, the Major scale's note set is a subset of the 12
canonical pitch classes, has at most 7 elements, and contains the
root. -/
theorem C9_notes_set_invariants :
    ∀ r : Note,
      (Scale.mk r ScaleMode.Major).notes ⊆ Finset.univ ∧
      (Scale.mk r ScaleMode.Major).notes.card ≤ 7 ∧
      r ∈ (Scale.mk r ScaleMode.Major).notes := by decide

/-- C10: `main` derives the tuning from the hard-coded reference pitch E,
so two invocations that differ only in `start_note` derive the same
open-string sequence and print the same row labels (string index and open
note). -/
theorem C10_start_note_noninterference (c1 c2 : Cli)
    (hs : c1.string_count = c2.string_count)
    (ht : c1.tuning = c2.tuning)
    (hfs : c1.frets_start = c2.frets_start)
    (hfe : c1.frets_end = c2.frets_end)
    (hm : c1.mode = c2.mode)
    (ha : c1.all_note_names = c2.all_note_names) :
    (mainTuning c1).open_notes = (mainTuning c2).open_notes ∧
    mainRowLabels c1 = mainRowLabels c2 := by
  have key : mainTuning c1 = mainTuning c2 := by
    unfold mainTuning
    rw [hs, ht, hfe]
  constructor
  · rw [key]
  · unfold mainRowLabels
    rw [key]

/-- C10 (witness): two concrete invocations differing only in
`start_note` (C versus G). -/
theorem C10_start_note_noninterference_witness :
    (mainTuning (Cli.mk Note.C ScaleMode.Major 6 false 0 24
        Tuning.Fourths)).open_notes =
      (mainTuning (Cli.mk Note.G ScaleMode.Major 6 false 0 24
        Tuning.Fourths)).open_notes ∧
    mainRowLabels (Cli.mk Note.C ScaleMode.Major 6 false 0 24
        Tuning.Fourths) =
      mainRowLabels (Cli.mk Note.G ScaleMode.Major 6 false 0 24
        Tuning.Fourths) :=
  C10_start_note_noninterference _ _ rfl rfl rfl rfl rfl rfl
